import Mathlib

/-!
Verification development for the nagme desktop reminder engine
(src/nagme_desktop.py).

The Python source is shallowly embedded: machine integers are Int
(Python integers are unbounded), fallible computations return Option,
and the stateful GUI methods that the claims mention (push_selected,
complete_selected_occurrence, _rebuild_current_nags_from_events) are
embedded as the pure state updates they perform.

Modelling conventions, stated once here:
  - The local timezone (local_tz in the source) is fixed to UTC, so
    ms_to_local(ms).date() is the civil date of floor(ms / 86400000)
    days after 1970-01-01 and local_to_ms(datetime(y,m,d,h,mi)) is
    days_from_civil(y,m,d)*86400000 + h*3600000 + mi*60000.  The claims
    under verification are uniform in the timezone offset.
  - Python date arithmetic (dt.date, timedelta(days=1), date.weekday())
    is the proleptic Gregorian calendar; it is embedded by the standard
    civil-calendar conversions below (days_from_civil, civil_from_days,
    month lengths, weekday as day-number mod 7 with 1970-01-01 a
    Thursday).
  - Python float arithmetic in progress_percent_label is embedded as
    exact rational arithmetic: int(round((a/b)*100.0)) becomes
    round-half-even of (100*a)/b, which is the float result wherever
    the float division is exact and has the same clamping behaviour.
  - Python or-defaulting (x or d) treats None, 0 and the empty string
    as falsy; pyOrInt and pyOrStr reproduce this exactly.
-/

/-! ## Module constants (verbatim from the source) -/

def ALL_BUCKET : String := "All"

def PROJECT_BUCKET : String := "Project"

def DEFAULT_PROJECT_NAME : String := "General"

def DEFAULT_BUCKETS : List String := ["Work", "Personal", "Weekend", "Holiday", PROJECT_BUCKET]

def MONTHLY_VIEW_30_DAYS : Int := 30

def MONTHLY_VIEW_1_YEAR_DAYS : Int := 365

def PRE_DUE_COLOR_WINDOW_DAYS : Int := 14

def SORT_ENTERED : String := "Entered"

def SORT_WEIGHT : String := "Weight"

def SORT_DUE : String := "Due"

def SORT_SMART : String := "Smart"

def NAG_MODE_ONE_TIME : String := "ONE_TIME"

def NAG_MODE_MONTHLY : String := "MONTHLY"

def PATTERN_DAY_OF_MONTH : String := "DAY_OF_MONTH"

def PATTERN_DAY_OF_WEEK : String := "DAY_OF_WEEK"

def PATTERN_NTH_WEEKDAY : String := "NTH_WEEKDAY_OF_MONTH"

def PATTERN_END_OF_MONTH : String := "END_OF_MONTH"

def PATTERN_QUARTERLY : String := "QUARTERLY"

def PATTERN_ANNUAL : String := "ANNUAL"

def PATTERN_OPTIONS : List String :=
  [PATTERN_DAY_OF_MONTH, PATTERN_DAY_OF_WEEK, PATTERN_NTH_WEEKDAY,
   PATTERN_END_OF_MONTH, PATTERN_QUARTERLY, PATTERN_ANNUAL]

def JAVA_MONDAY : Int := 2

/-- 2^63 - 1, the sentinel the source uses for a missing due instant. -/
def MAX_LONG : Int := 9223372036854775807

/-! ## Python or-defaulting -/

/-- Python `value or default` for an optional integer: None and 0 are falsy. -/
def pyOrInt (value : Option Int) (dflt : Int) : Int :=
  match value with
  | none => dflt
  | some v => if v = 0 then dflt else v

/-- Python `value or default` for a string: the empty string is falsy. -/
def pyOrStr (value dflt : String) : String :=
  if value = "" then dflt else value

/-! ## Python string primitives

The built-in String.trim / String.toLower / String.replace and the String
order are implemented with opaque byte-position loops, so they are re-modelled
here over the underlying character list, which also keeps every definition
kernel-computable.  The model covers the ASCII strings the engine compares
(bucket names, mode and pattern tags, action verbs, ISO timestamps); the
source behaves identically on them. -/

/-- The whitespace Python str.strip removes (ASCII subset). -/
def pyIsSpace (c : Char) : Bool :=
  c = ' ' || c = '\t' || c = '\n' || c = '\r'

/-- Python str.strip(). -/
def pyTrim (s : String) : String :=
  String.mk (((s.data.dropWhile pyIsSpace).reverse.dropWhile pyIsSpace).reverse)

def pyToLowerChar (c : Char) : Char :=
  if 'A' ≤ c ∧ c ≤ 'Z' then Char.ofNat (c.toNat + 32) else c

/-- Python str.lower() (ASCII letters). -/
def pyToLower (s : String) : String :=
  String.mk (s.data.map pyToLowerChar)

/-- Python s.replace(old, new) for a one-character pattern and
replacement. -/
def pyReplaceChar (oldc newc : Char) (s : String) : String :=
  String.mk (s.data.map (fun c => if c = oldc then newc else c))

/-- Lexicographic-by-codepoint comparison of character lists: the order
Python uses on strings. -/
def strListLe : List Char → List Char → Bool
  | [], _ => true
  | _ :: _, [] => false
  | a :: s, b :: t =>
    decide (a.toNat < b.toNat) || (decide (a.toNat = b.toNat) && strListLe s t)

/-- Python string comparison a ≤ b. -/
def pyStrLe (a b : String) : Bool := strListLe a.data b.data

/-! ## Python sorted

Python sorted(xs, key) is the stable ascending sort.  It is embedded as
insertion sort in which an element moves past exactly the strictly smaller
elements, which is that stable sort (and is kernel-computable, unlike the
well-founded-recursion mergeSort of the library). -/

/-- Insert a into l, after the strictly smaller prefix and before every
element that is not strictly smaller (so ties keep their input order). -/
def insertLe (le : α → α → Bool) (a : α) : List α → List α
  | [] => [a]
  | b :: t => if le b a && !le a b then b :: insertLe le a t else a :: b :: t

/-- Python sorted(l) with comparison le: the stable ascending sort. -/
def pySorted (le : α → α → Bool) : List α → List α
  | [] => []
  | a :: t => insertLe le a (pySorted le t)

/-! ## Civil calendar (the embedding of Python dt.date arithmetic)

A calendar date is a (year, month, day) triple.  days_from_civil and
civil_from_days are the standard proleptic-Gregorian conversions between
dates and day numbers relative to 1970-01-01 (the Hinnant algorithms,
written with Int.ediv which is floor division for the positive literal
divisors used).
-/

structure CalDate where
  year : Int
  month : Int
  day : Int
deriving DecidableEq, Repr

/-- Gregorian leap-year rule. -/
def isLeapYear (y : Int) : Bool :=
  y % 4 = 0 && (y % 100 ≠ 0 || y % 400 = 0)

/-- Number of days in a month.  The source computes this with Python date
arithmetic (first of next month minus one day); this is the value that
computation yields.  Months outside 1..12 cannot arise from civil dates. -/
def month_max_day (y m : Int) : Int :=
  if m = 2 then (if isLeapYear y then 29 else 28)
  else if m = 4 ∨ m = 6 ∨ m = 9 ∨ m = 11 then 30
  else 31

/-- Day number of a civil date, with day 0 = 1970-01-01. -/
def days_from_civil (y m d : Int) : Int :=
  let yAdj := if m ≤ 2 then y - 1 else y
  let era := yAdj / 400
  let yoe := yAdj - era * 400
  let doy := (153 * (m + (if 2 < m then -3 else 9)) + 2) / 5 + d - 1
  let doe := yoe * 365 + yoe / 4 - yoe / 100 + doy
  era * 146097 + doe - 719468

/-- Civil date of a day number (inverse of days_from_civil). -/
def civil_from_days (z : Int) : CalDate :=
  let zAdj := z + 719468
  let era := zAdj / 146097
  let doe := zAdj - era * 146097
  let yoe := (doe - doe / 1460 + doe / 36524 - doe / 146096) / 365
  let y := yoe + era * 400
  let doy := doe - (365 * yoe + yoe / 4 - yoe / 100)
  let mp := (5 * doy + 2) / 153
  let d := doy - (153 * mp + 2) / 5 + 1
  let m := mp + (if mp < 10 then 3 else -9)
  ⟨if m ≤ 2 then y + 1 else y, m, d⟩

/-- Python date.weekday(): Monday=0 .. Sunday=6.  Day 0 (1970-01-01) was a
Thursday (= 3). -/
def python_weekday (dte : CalDate) : Int :=
  (days_from_civil dte.year dte.month dte.day + 3) % 7

/-- java_day_of_week from the source: Java Calendar style, Sunday=1 ..
Saturday=7, computed from the Python weekday. -/
def java_day_of_week (dte : CalDate) : Int :=
  (python_weekday dte + 1) % 7 + 1

/-- Python date + timedelta(days=1) on a valid date. -/
def nextDate (dte : CalDate) : CalDate :=
  if dte.day < month_max_day dte.year dte.month then ⟨dte.year, dte.month, dte.day + 1⟩
  else if dte.month < 12 then ⟨dte.year, dte.month + 1, 1⟩
  else ⟨dte.year + 1, 1, 1⟩

/-- Python date - timedelta(days=1) on a valid date. -/
def prevDate (dte : CalDate) : CalDate :=
  if 1 < dte.day then ⟨dte.year, dte.month, dte.day - 1⟩
  else if 1 < dte.month then ⟨dte.year, dte.month - 1, month_max_day dte.year (dte.month - 1)⟩
  else ⟨dte.year - 1, 12, 31⟩

/-- ms_to_local(ms).date() with the local zone fixed to UTC. -/
def msToDate (ms : Int) : CalDate :=
  civil_from_days (ms / 86400000)

/-- local_to_ms(datetime(year, month, day, hour, minute)) with the local
zone fixed to UTC. -/
def dueMsOfDate (dte : CalDate) (hour minute : Int) : Int :=
  days_from_civil dte.year dte.month dte.day * 86400000 + hour * 3600000 + minute * 60000

/-! ## nth_weekday_day_of_month -/

/-- The loop body of nth_weekday_day_of_month: the days among 1..n of month
(y, m) whose java_day_of_week equals target_java_dow, in ascending order. -/
def weekdayMatchesUpTo (y m target_java_dow : Int) : Nat → List Int
  | 0 => []
  | n + 1 =>
    weekdayMatchesUpTo y m target_java_dow n ++
      (if java_day_of_week ⟨y, m, (n : Int) + 1⟩ = target_java_dow then [(n : Int) + 1] else [])

/-- All days of month (y, m) falling on the given Java weekday. -/
def weekdayMatches (y m target_java_dow : Int) : List Int :=
  weekdayMatchesUpTo y m target_java_dow (month_max_day y m).toNat

/-- nth_weekday_day_of_month from the source: the day of the Nth occurrence
of the weekday, with the last occurrence used when nth_week ≥ 5 or the month
has fewer than nth_week occurrences. -/
def nth_weekday_day_of_month (y m target_java_dow nth_week : Int) : Int :=
  let occ := weekdayMatches y m target_java_dow
  if occ = [] then 1
  else if 5 ≤ nth_week then occ.getLastD 1
  else
    let index := max 0 (nth_week - 1)
    if index < (occ.length : Int) then occ.getD index.toNat 1 else occ.getLastD 1

/-! ## Data model -/

structure DueWindow where
  start_ms : Int
  due_ms : Int
  source_due_ms : Int
deriving DecidableEq, Repr

/-- The Nag dataclass.  The three icon fields hold already-normalized
values (the normalize_icon_glyph / normalize_icon_png_base64 /
normalize_image_url validators are presentational and not needed by any
claim; a some value stands for a string those validators accepted). -/
structure Nag where
  work_name : String
  nag_text : String
  bucket : String
  project_name : Option String
  lateness_days : Int
  mode : String
  repeat_minutes : Int
  continue_minutes : Option Int
  notifications_enabled : Bool
  weight : Int
  one_time_epoch_ms : Option Int
  monthly_day : Option Int
  monthly_hour : Option Int
  monthly_minute : Option Int
  created_at_epoch_ms : Int
  skipped_monthly_due_epoch_ms : List Int := []
  icon_glyph : Option String := none
  icon_png_base64 : Option String := none
  image_url : Option String := none
  recurring_pattern_type : String := PATTERN_DAY_OF_MONTH
  recurring_day_of_week : Option Int := none
  recurring_nth_week : Option Int := none
  recurring_month_of_year : Option Int := none
  recurring_quarter_anchor_month : Option Int := none
  recurring_visible_days_before_due : Option Int := none
  pushed_offset_ms : Int := 0
  push_count : Int := 0
  pushed_total_ms : Int := 0
deriving DecidableEq, Repr

structure NagListEntry where
  nag : Nag
  due_window : Option DueWindow
  key : String
deriving DecidableEq, Repr

/-- is_monthly_due_skipped: membership of due_ms in the skipped list (the
source tests membership in set(list), which is list membership). -/
def Nag.is_monthly_due_skipped (nag : Nag) (due_ms : Int) : Bool :=
  nag.skipped_monthly_due_epoch_ms.contains due_ms

def apply_push_offset (nag : Nag) (base_due_ms : Int) : Int :=
  base_due_ms + max 0 nag.pushed_offset_ms

/-! ## Recurring date matching -/

def is_recurring_date_match (nag : Nag) (day_value : CalDate) : Bool :=
  if nag.mode ≠ NAG_MODE_MONTHLY then false
  else
    let month := day_value.month
    let day_of_month := day_value.day
    let java_dow := java_day_of_week day_value
    let max_day := month_max_day day_value.year month
    let pattern := pyOrStr nag.recurring_pattern_type PATTERN_DAY_OF_MONTH
    if pattern = PATTERN_DAY_OF_MONTH then
      decide (day_of_month = min (pyOrInt nag.monthly_day day_of_month) max_day)
    else if pattern = PATTERN_DAY_OF_WEEK then
      decide (java_dow = pyOrInt nag.recurring_day_of_week JAVA_MONDAY)
    else if pattern = PATTERN_NTH_WEEKDAY then
      decide (day_of_month =
        nth_weekday_day_of_month day_value.year month
          (pyOrInt nag.recurring_day_of_week JAVA_MONDAY)
          (pyOrInt nag.recurring_nth_week 1))
    else if pattern = PATTERN_END_OF_MONTH then
      decide (day_of_month = max_day)
    else if pattern = PATTERN_QUARTERLY then
      let created_month := (msToDate nag.created_at_epoch_ms).month
      let anchor_month := max 1 (min 12 (pyOrInt nag.recurring_quarter_anchor_month created_month))
      let month_delta := ((month - anchor_month) % 12 + 12) % 12
      decide (month_delta % 3 = 0) &&
        decide (day_of_month = min (pyOrInt nag.monthly_day day_of_month) max_day)
    else if pattern = PATTERN_ANNUAL then
      let target_month := max 1 (min 12 (pyOrInt nag.recurring_month_of_year month))
      decide (month = target_month) &&
        decide (day_of_month = min (pyOrInt nag.monthly_day day_of_month) max_day)
    else false

/-! ## Next / previous base due resolution

The source scans day by day for up to 366*6+1 = 2197 days; the day offset
loop becomes structural recursion on that fuel, with the probe date advanced
by one calendar day each step (current_date = probe_date + timedelta(days=
day_offset)).
-/

/-- Loop body of resolve_next_recurring_base_due_ms. -/
def resolveNextAux (nag : Nag) (reference_ms hour minute : Int) : Nat → CalDate → Option Int
  | 0, _ => none
  | fuel + 1, probe =>
    if is_recurring_date_match nag probe then
      if dueMsOfDate probe hour minute < reference_ms then
        resolveNextAux nag reference_ms hour minute fuel (nextDate probe)
      else if nag.is_monthly_due_skipped (dueMsOfDate probe hour minute) then
        resolveNextAux nag reference_ms hour minute fuel (nextDate probe)
      else some (dueMsOfDate probe hour minute)
    else resolveNextAux nag reference_ms hour minute fuel (nextDate probe)

def resolve_next_recurring_base_due_ms (nag : Nag) (reference_ms : Int) : Option Int :=
  if nag.mode ≠ NAG_MODE_MONTHLY then none
  else
    match nag.monthly_hour, nag.monthly_minute with
    | some hour, some minute =>
      resolveNextAux nag reference_ms hour minute 2197 (msToDate reference_ms)
    | _, _ => none

/-- Loop body of resolve_previous_recurring_base_due_ms.  Note: the skip
list is never consulted on the backward scan, exactly as in the source. -/
def resolvePrevAux (nag : Nag) (reference_ms hour minute : Int) : Nat → CalDate → Option Int
  | 0, _ => none
  | fuel + 1, probe =>
    if is_recurring_date_match nag probe then
      if reference_ms < dueMsOfDate probe hour minute then
        resolvePrevAux nag reference_ms hour minute fuel (prevDate probe)
      else some (dueMsOfDate probe hour minute)
    else resolvePrevAux nag reference_ms hour minute fuel (prevDate probe)

def resolve_previous_recurring_base_due_ms (nag : Nag) (reference_ms : Int) : Option Int :=
  if nag.mode ≠ NAG_MODE_MONTHLY then none
  else
    match nag.monthly_hour, nag.monthly_minute with
    | some hour, some minute =>
      resolvePrevAux nag reference_ms hour minute 2197 (msToDate reference_ms)
    | _, _ => none

/-- resolve_current_display_monthly_due_window.  The source writes
`resolve_previous_recurring_base_due_ms(nag, base_due - 1) or
nag.created_at_epoch_ms`, a Python or in which both None and 0 are falsy;
pyOrInt reproduces that. -/
def resolve_current_display_monthly_due_window (nag : Nag) (reference_ms : Int) : Option DueWindow :=
  match resolve_next_recurring_base_due_ms nag reference_ms with
  | none => none
  | some base_due =>
    let previous_base :=
      pyOrInt (resolve_previous_recurring_base_due_ms nag (base_due - 1)) nag.created_at_epoch_ms
    some ⟨max previous_base nag.created_at_epoch_ms, apply_push_offset nag base_due, base_due⟩

/-- Loop body of resolve_monthly_due_windows_in_range: the while loop with
guard < 600 appends exactly one window per iteration, so the guard is the
structural fuel. -/
def resolveRangeAux (nag : Nag) (range_end_ms : Int) : Nat → Int → List DueWindow
  | 0, _ => []
  | fuel + 1, search_cursor =>
    match resolve_next_recurring_base_due_ms nag search_cursor with
    | none => []
    | some next_base_due =>
      if range_end_ms < apply_push_offset nag next_base_due then []
      else
        ⟨max (pyOrInt (resolve_previous_recurring_base_due_ms nag (next_base_due - 1))
              nag.created_at_epoch_ms) nag.created_at_epoch_ms,
         apply_push_offset nag next_base_due, next_base_due⟩ ::
          resolveRangeAux nag range_end_ms fuel (next_base_due + 60000)

def resolve_monthly_due_windows_in_range (nag : Nag) (range_start_ms range_end_ms : Int) : List DueWindow :=
  if range_end_ms < range_start_ms then []
  else resolveRangeAux nag range_end_ms 600 range_start_ms

def resolve_due_window (nag : Nag) (now_ms_value : Int) : Option DueWindow :=
  if nag.mode = NAG_MODE_ONE_TIME then
    match nag.one_time_epoch_ms with
    | none => none
    | some base_due =>
      some ⟨min nag.created_at_epoch_ms base_due, apply_push_offset nag base_due, base_due⟩
  else resolve_current_display_monthly_due_window nag now_ms_value

def resolve_next_due_ms (nag : Nag) (reference_ms : Int) : Option Int :=
  if nag.mode = NAG_MODE_ONE_TIME then
    match nag.one_time_epoch_ms with
    | none => none
    | some base => some (apply_push_offset nag base)
  else
    match resolve_next_recurring_base_due_ms nag reference_ms with
    | none => none
    | some base_due => some (apply_push_offset nag base_due)

/-! ## Validated construction (Nag.from_payload)

The source parses an untyped JSON dictionary, probing several alternate key
names per logical field and coercing loosely typed values with int()/str().
The embedding types the payload directly: each field holds the coerced value
the probing would produce (none for an absent or empty value), the
skipped-occurrence field holds the integers that survived the per-item
int() coercion, and the icon fields hold already-normalized values.  A
payload whose coercions would raise (and so make from_payload return None)
is outside this typed model; every claim is about payloads that construct.
createdAtEpochMillis defaults to now_ms() in the source, so from_payload
takes the clock value as an explicit argument. -/

structure Payload where
  workName : String := ""
  nagText : String := ""
  bucket : Option String := none
  projectName : Option String := none
  latenessDays : Option Int := none
  mode : Option String := none
  repeatMinutes : Option Int := none
  continueMinutes : Option Int := none
  notificationsEnabled : Option Bool := none
  weight : Option Int := none
  oneTimeEpochMillis : Option Int := none
  monthlyDay : Option Int := none
  monthlyHour : Option Int := none
  monthlyMinute : Option Int := none
  createdAtEpochMillis : Option Int := none
  skippedMonthlyDueEpochMillis : List Int := []
  iconGlyph : Option String := none
  iconPngBase64 : Option String := none
  imageUrl : Option String := none
  recurringPatternType : Option String := none
  recurringDayOfWeek : Option Int := none
  recurringNthWeek : Option Int := none
  recurringMonthOfYear : Option Int := none
  recurringQuarterAnchorMonth : Option Int := none
  recurringVisibleDaysBeforeDue : Option Int := none
  pushedOffsetMillis : Option Int := none
  pushCount : Option Int := none
  pushedTotalMillis : Option Int := none
  action : Option String := none
deriving DecidableEq, Repr

/-- normalize_project_name: newlines become spaces, surrounding whitespace
is stripped, and an empty result is None. -/
def normalize_project_name (raw : String) : Option String :=
  let text := pyTrim (pyReplaceChar '\r' ' ' (pyReplaceChar '\n' ' ' raw))
  if text = "" then none else some text

/-- One insertion step of pySortedSet: place a in an already strictly
ascending list, dropping it if present. -/
def insertSortedDedup (a : Int) : List Int → List Int
  | [] => [a]
  | b :: t =>
    if b < a then b :: insertSortedDedup a t
    else if b = a then b :: t
    else a :: b :: t

/-- Python sorted(set(l)): the distinct values in ascending order. -/
def pySortedSet (l : List Int) : List Int :=
  l.foldr insertSortedDedup []

/-- Python l[-n:]: the last n elements (all of them when there are fewer). -/
def lastSlice (n : Nat) (l : List Int) : List Int :=
  l.drop (l.length - n)

def Nag.from_payload (payload : Payload) (now_ms_value : Int) : Option Nag :=
  let work_name := pyTrim payload.workName
  let nag_text := pyTrim payload.nagText
  if work_name = "" ∨ nag_text = "" then none
  else
    let skipped := payload.skippedMonthlyDueEpochMillis
    let project_name0 := payload.projectName.bind normalize_project_name
    let recurring_visible_days_before_due :=
      payload.recurringVisibleDaysBeforeDue.map (fun v => max 1 v)
    let bucket := pyOrStr (payload.bucket.getD (DEFAULT_BUCKETS.getD 0 "")) (DEFAULT_BUCKETS.getD 0 "")
    let project_name :=
      if pyToLower bucket = pyToLower PROJECT_BUCKET then some (project_name0.getD DEFAULT_PROJECT_NAME)
      else none
    some
      { work_name := work_name
        nag_text := nag_text
        bucket := bucket
        project_name := project_name
        lateness_days := max 1 (payload.latenessDays.getD 7)
        mode := pyOrStr (payload.mode.getD NAG_MODE_ONE_TIME) NAG_MODE_ONE_TIME
        repeat_minutes := max 1 (payload.repeatMinutes.getD 60)
        continue_minutes := payload.continueMinutes
        notifications_enabled := payload.notificationsEnabled.getD true
        weight := max 0 (min 100 (payload.weight.getD 50))
        one_time_epoch_ms := payload.oneTimeEpochMillis
        monthly_day := payload.monthlyDay
        monthly_hour := payload.monthlyHour
        monthly_minute := payload.monthlyMinute
        created_at_epoch_ms := payload.createdAtEpochMillis.getD now_ms_value
        skipped_monthly_due_epoch_ms := pySortedSet skipped
        icon_glyph := payload.iconGlyph
        icon_png_base64 := payload.iconPngBase64
        image_url := payload.imageUrl
        recurring_pattern_type := payload.recurringPatternType.getD PATTERN_DAY_OF_MONTH
        recurring_day_of_week := payload.recurringDayOfWeek
        recurring_nth_week := payload.recurringNthWeek
        recurring_month_of_year := payload.recurringMonthOfYear
        recurring_quarter_anchor_month := payload.recurringQuarterAnchorMonth
        recurring_visible_days_before_due := recurring_visible_days_before_due
        pushed_offset_ms := max 0 (payload.pushedOffsetMillis.getD 0)
        push_count := max 0 (payload.pushCount.getD 0)
        pushed_total_ms := max 0 (payload.pushedTotalMillis.getD 0) }

/-! ## The push and complete-occurrence updates

push_selected and complete_selected_occurrence clone the selected Nag and
override a few fields (lines 2313-2316 and 2340-2341 of the source); the
embedded functions are exactly those overrides. -/

/-- The update push_selected applies for a parsed push duration push_ms. -/
def push_selected_update (nag : Nag) (push_ms : Int) : Nag :=
  { nag with
    pushed_offset_ms := max 0 (nag.pushed_offset_ms + push_ms)
    push_count := max 0 (nag.push_count + 1)
    pushed_total_ms := max 0 (nag.pushed_total_ms + push_ms) }

/-- The update complete_selected_occurrence applies for the selected
source due instant: sorted(set(old + [source_due]))[-200:]. -/
def complete_selected_occurrence_update (nag : Nag) (source_due : Int) : Nag :=
  { nag with
    skipped_monthly_due_epoch_ms :=
      lastSlice 200 (pySortedSet (nag.skipped_monthly_due_epoch_ms ++ [source_due])) }

/-! ## Event reconciliation (_rebuild_current_nags_from_events)

An event row carries a creation timestamp (a string: the source sorts rows
by str(row.get("created_at", ""))), a payload and an optional side column of
inline icon bytes.  payload = none models a row _parse_payload rejects; the
icon column holds an already-normalized value (none when
normalize_icon_png_base64 rejects it).  The reminder map is embedded as a
function from work_name to Option Nag.  The two diagnostic counters have no
effect on the map and are not modelled. -/

structure EventRow where
  created_at : String
  payload : Option Payload
  icon_png_base64 : Option String := none
deriving DecidableEq, Repr

/-- The per-row step of the reconciliation loop. -/
def rebuild_row_apply (now_ms_value : Int) (current : String → Option Nag) (row : EventRow) :
    String → Option Nag :=
  match row.payload with
  | none => current
  | some payload =>
    match Nag.from_payload payload now_ms_value with
    | none => current
    | some nag0 =>
      let nag :=
        match row.icon_png_base64 with
        | some row_icon => { nag0 with icon_png_base64 := some row_icon }
        | none => nag0
      let action := pyToLower (pyTrim (payload.action.getD ""))
      if action = "delete" then fun k => if k = nag.work_name then none else current k
      else fun k => if k = nag.work_name then some nag else current k

/-- _rebuild_current_nags_from_events: rows are processed in ascending
created_at order (Python sorted is stable, as is List.mergeSort), each row
either deleting or upserting its work_name. -/
def rebuild_current_nags_from_events (events : List EventRow) (now_ms_value : Int) :
    String → Option Nag :=
  let sorted_events := pySorted (fun a b => pyStrLe a.created_at b.created_at) events
  sorted_events.foldl (rebuild_row_apply now_ms_value) (fun _ => none)

/-! ## Entry sorting -/

def smart_status_rank (due_ms now_ms_value : Int) : Int :=
  if due_ms = MAX_LONG then 3
  else if due_ms < now_ms_value then 0
  else if due_ms - now_ms_value ≤ PRE_DUE_COLOR_WINDOW_DAYS * 24 * 60 * 60 * 1000 then 1
  else 2

/-- The entry_due_ms closure inside sort_entries: a resolved window wins,
otherwise the next due instant, otherwise the MAX_LONG sentinel. -/
def entry_due_ms (now_ms_value : Int) (entry : NagListEntry) : Int :=
  match entry.due_window with
  | some w => w.due_ms
  | none => (resolve_next_due_ms entry.nag now_ms_value).getD MAX_LONG

/-- Lexicographic comparison of Python 2-tuples of integers. -/
def tuple2Le (a b : Int × Int) : Bool :=
  decide (a.1 < b.1) || (decide (a.1 = b.1) && decide (a.2 ≤ b.2))

/-- Lexicographic comparison of Python 3-tuples of integers. -/
def tuple3Le (a b : Int × Int × Int) : Bool :=
  decide (a.1 < b.1) || (decide (a.1 = b.1) && tuple2Le a.2 b.2)

/-- Lexicographic comparison of Python 4-tuples of integers. -/
def tuple4Le (a b : Int × Int × Int × Int) : Bool :=
  decide (a.1 < b.1) || (decide (a.1 = b.1) && tuple3Le a.2 b.2)

/-- The sort key of the Weight mode. -/
def weight_sort_key (now_ms_value : Int) (e : NagListEntry) : Int × Int × Int :=
  (-e.nag.weight, entry_due_ms now_ms_value e, e.nag.created_at_epoch_ms)

/-- The sort key of the Due mode. -/
def due_sort_key (now_ms_value : Int) (e : NagListEntry) : Int × Int × Int :=
  (entry_due_ms now_ms_value e, -e.nag.weight, e.nag.created_at_epoch_ms)

/-- The sort key of the Smart mode. -/
def smart_sort_key (now_ms_value : Int) (e : NagListEntry) : Int × Int × Int × Int :=
  (smart_status_rank (entry_due_ms now_ms_value e) now_ms_value,
   -e.nag.weight, entry_due_ms now_ms_value e, e.nag.created_at_epoch_ms)

/-- The sort key of the default (Entered) mode. -/
def entered_sort_key (now_ms_value : Int) (e : NagListEntry) : Int × Int :=
  (e.nag.created_at_epoch_ms, entry_due_ms now_ms_value e)

/-- sort_entries: Python sorted by the per-mode key tuple; sorted is stable
and so is List.mergeSort with the lexicographic tuple order. -/
def sort_entries (entries : List NagListEntry) (sort_mode : String) (now_ms_value : Int) :
    List NagListEntry :=
  if sort_mode = SORT_WEIGHT then
    pySorted (fun a b => tuple3Le (weight_sort_key now_ms_value a) (weight_sort_key now_ms_value b)) entries
  else if sort_mode = SORT_DUE then
    pySorted (fun a b => tuple3Le (due_sort_key now_ms_value a) (due_sort_key now_ms_value b)) entries
  else if sort_mode = SORT_SMART then
    pySorted (fun a b => tuple4Le (smart_sort_key now_ms_value a) (smart_sort_key now_ms_value b)) entries
  else
    pySorted (fun a b => tuple2Le (entered_sort_key now_ms_value a) (entered_sort_key now_ms_value b)) entries

/-! ## Progress visuals (the percent label) -/

def overdue_window_ms (lateness_days : Int) : Int :=
  max 1 lateness_days * 24 * 60 * 60 * 1000

/-- Python int(round(x)) for x = a/b with b > 0, i.e. rounding a/b to the
nearest integer with ties to even, in exact rational arithmetic. -/
def pyRound (a b : Int) : Int :=
  if 2 * (a % b) < b then a / b
  else if b < 2 * (a % b) then a / b + 1
  else if (a / b) % 2 = 0 then a / b else a / b + 1

/-- The integer percent of progress_percent_label. -/
def progress_percent (now_ms_value start_ms due_ms lateness_days : Int) : Int :=
  if now_ms_value ≤ due_ms then
    let denominator := max 1 (due_ms - start_ms)
    let elapsed := max 0 (min denominator (now_ms_value - start_ms))
    pyRound (100 * elapsed) denominator
  else
    let window := max 1 (overdue_window_ms lateness_days)
    let past_due := max 0 (now_ms_value - due_ms)
    pyRound (100 * past_due) window

def progress_percent_label (now_ms_value start_ms due_ms lateness_days : Int) : String :=
  toString (progress_percent now_ms_value start_ms due_ms lateness_days) ++ "%"

/-! # Helper lemmas

## The stable insertion sort -/

theorem insertLe_perm (le : α → α → Bool) (a : α) :
    ∀ l : List α, List.Perm (insertLe le a l) (a :: l) := by
  intro l
  induction l with
  | nil => simp [insertLe]
  | cons b t ih =>
    simp only [insertLe]
    split
    · exact (ih.cons b).trans (List.Perm.swap a b t)
    · exact List.Perm.refl _

theorem pySorted_perm (le : α → α → Bool) :
    ∀ l : List α, List.Perm (pySorted le l) l := by
  intro l
  induction l with
  | nil => simp [pySorted]
  | cons a t ih => exact (insertLe_perm le a (pySorted le t)).trans (ih.cons a)

theorem insertLe_pairwise (le : α → α → Bool)
    (total : ∀ x y, (le x y || le y x) = true)
    (trans : ∀ x y z, le x y = true → le y z = true → le x z = true)
    (a : α) :
    ∀ l : List α, l.Pairwise (fun x y => le x y = true) →
      (insertLe le a l).Pairwise (fun x y => le x y = true) := by
  intro l
  induction l with
  | nil => simp [insertLe]
  | cons b t ih =>
    intro h
    rw [List.pairwise_cons] at h
    obtain ⟨hb, ht⟩ := h
    simp only [insertLe]
    split
    · rename_i hcond
      rw [Bool.and_eq_true, Bool.not_eq_true'] at hcond
      rw [List.pairwise_cons]
      refine ⟨?_, ih ht⟩
      intro x hx
      rcases List.mem_cons.mp (((insertLe_perm le a t).mem_iff).mp hx) with hxa | hxt
      · subst hxa; exact hcond.1
      · exact hb x hxt
    · rename_i hcond
      rw [Bool.and_eq_true, Bool.not_eq_true'] at hcond
      have hab : le a b = true := by
        rcases (Bool.or_eq_true _ _).mp (total a b) with h1 | h1
        · exact h1
        · by_contra h2
          rw [Bool.not_eq_true] at h2
          exact hcond ⟨h1, h2⟩
      rw [List.pairwise_cons]
      constructor
      · intro x hx
        rcases List.mem_cons.mp hx with hxb | hxt
        · subst hxb; exact hab
        · exact trans a b x hab (hb x hxt)
      · rw [List.pairwise_cons]
        exact ⟨hb, ht⟩

theorem pySorted_pairwise (le : α → α → Bool)
    (total : ∀ x y, (le x y || le y x) = true)
    (trans : ∀ x y z, le x y = true → le y z = true → le x z = true) :
    ∀ l : List α, (pySorted le l).Pairwise (fun x y => le x y = true) := by
  intro l
  induction l with
  | nil => simp [pySorted]
  | cons a t ih => exact insertLe_pairwise le total trans a (pySorted le t) ih

/-- Two sorted lists that are permutations of each other are equal, given
antisymmetry of the comparison on the members involved. -/
theorem eq_of_perm_of_pairwise (le : α → α → Bool) :
    ∀ l₁ l₂ : List α, List.Perm l₁ l₂ →
      l₁.Pairwise (fun x y => le x y = true) →
      l₂.Pairwise (fun x y => le x y = true) →
      (∀ x y, x ∈ l₁ → y ∈ l₁ → le x y = true → le y x = true → x = y) →
      l₁ = l₂ := by
  intro l₁
  induction l₁ with
  | nil =>
    intro l₂ hp _ _ _
    exact hp.nil_eq
  | cons a t₁ ih =>
    intro l₂ hp h₁ h₂ hanti
    cases l₂ with
    | nil => exact absurd hp.symm.nil_eq (by simp)
    | cons b t₂ =>
      rw [List.pairwise_cons] at h₁ h₂
      have hab : a = b := by
        have ha2 : a ∈ b :: t₂ := hp.subset (List.mem_cons_self a t₁)
        rcases List.mem_cons.mp ha2 with h | hat₂
        · exact h
        · have hb1 : b ∈ a :: t₁ := hp.symm.subset (List.mem_cons_self b t₂)
          rcases List.mem_cons.mp hb1 with h | hbt₁
          · exact h.symm
          · exact hanti a b (List.mem_cons_self a t₁) (List.mem_cons_of_mem a hbt₁)
              (h₁.1 b hbt₁) (h₂.1 a hat₂)
      subst hab
      have htp : List.Perm t₁ t₂ := hp.cons_inv
      have hteq : t₁ = t₂ := by
        refine ih t₂ htp h₁.2 h₂.2 ?_
        intro x y hx hy
        exact hanti x y (List.mem_cons_of_mem a hx) (List.mem_cons_of_mem a hy)
      rw [hteq]

/-! ## The string order -/

theorem strListLe_total : ∀ a b : List Char, (strListLe a b || strListLe b a) = true := by
  intro a
  induction a with
  | nil => intro b; simp [strListLe]
  | cons c s ih =>
    intro b
    cases b with
    | nil => simp [strListLe]
    | cons d t =>
      simp only [strListLe, Bool.or_eq_true, Bool.and_eq_true, decide_eq_true_eq]
      rcases Nat.lt_trichotomy c.toNat d.toNat with h | h | h
      · exact Or.inl (Or.inl h)
      · have := ih t
        simp only [Bool.or_eq_true] at this
        rcases this with h1 | h1
        · exact Or.inl (Or.inr ⟨h, h1⟩)
        · exact Or.inr (Or.inr ⟨h.symm, h1⟩)
      · exact Or.inr (Or.inl h)

theorem strListLe_trans : ∀ a b c : List Char,
    strListLe a b = true → strListLe b c = true → strListLe a c = true := by
  intro a
  induction a with
  | nil => intro b c _ _; simp [strListLe]
  | cons x s ih =>
    intro b c hab hbc
    cases b with
    | nil => simp [strListLe] at hab
    | cons y t =>
      cases c with
      | nil => simp [strListLe] at hbc
      | cons z u =>
        simp only [strListLe, Bool.or_eq_true, Bool.and_eq_true, decide_eq_true_eq] at hab hbc ⊢
        rcases hab with h1 | ⟨h1, hab2⟩ <;> rcases hbc with h2 | ⟨h2, hbc2⟩
        · exact Or.inl (by omega)
        · exact Or.inl (by omega)
        · exact Or.inl (by omega)
        · exact Or.inr ⟨by omega, ih t u hab2 hbc2⟩

theorem strListLe_antisymm : ∀ a b : List Char,
    strListLe a b = true → strListLe b a = true → a = b := by
  intro a
  induction a with
  | nil =>
    intro b _ hba
    cases b with
    | nil => rfl
    | cons d t => simp [strListLe] at hba
  | cons c s ih =>
    intro b hab hba
    cases b with
    | nil => simp [strListLe] at hab
    | cons d t =>
      simp only [strListLe, Bool.or_eq_true, Bool.and_eq_true, decide_eq_true_eq] at hab hba
      rcases hab with h1 | ⟨h1, hab2⟩ <;> rcases hba with h2 | ⟨h2, hba2⟩ <;>
        first
        | (exfalso; omega)
        | (have hn : c.toNat = d.toNat := by omega
           have hcd : c = d := Char.ext (UInt32.toNat.inj hn)
           rw [hcd, ih t hab2 hba2])

theorem pyStrLe_total (a b : String) : (pyStrLe a b || pyStrLe b a) = true :=
  strListLe_total a.data b.data

theorem pyStrLe_trans (a b c : String) :
    pyStrLe a b = true → pyStrLe b c = true → pyStrLe a c = true :=
  strListLe_trans a.data b.data c.data

theorem pyStrLe_antisymm (a b : String) :
    pyStrLe a b = true → pyStrLe b a = true → a = b := by
  intro hab hba
  cases a with
  | mk la =>
    cases b with
    | mk lb =>
      have : la = lb := strListLe_antisymm la lb hab hba
      rw [this]

/-! ## Resolver scan lemmas -/

theorem resolveNextAux_ge (nag : Nag) (reference_ms hour minute : Int) :
    ∀ (fuel : Nat) (probe : CalDate) (due : Int),
      resolveNextAux nag reference_ms hour minute fuel probe = some due → reference_ms ≤ due := by
  intro fuel
  induction fuel with
  | zero => intro probe due h; simp [resolveNextAux] at h
  | succ n ih =>
    intro probe due h
    simp only [resolveNextAux] at h
    split_ifs at h with h1 h2 h3
    · exact ih (nextDate probe) due h
    · exact ih (nextDate probe) due h
    · rw [Option.some_inj] at h
      omega
    · exact ih (nextDate probe) due h

theorem resolvePrevAux_le (nag : Nag) (reference_ms hour minute : Int) :
    ∀ (fuel : Nat) (probe : CalDate) (due : Int),
      resolvePrevAux nag reference_ms hour minute fuel probe = some due → due ≤ reference_ms := by
  intro fuel
  induction fuel with
  | zero => intro probe due h; simp [resolvePrevAux] at h
  | succ n ih =>
    intro probe due h
    simp only [resolvePrevAux] at h
    split_ifs at h with h1 h2
    · exact ih (prevDate probe) due h
    · rw [Option.some_inj] at h
      omega
    · exact ih (prevDate probe) due h

theorem resolve_next_ge (nag : Nag) (reference_ms due : Int) :
    resolve_next_recurring_base_due_ms nag reference_ms = some due → reference_ms ≤ due := by
  intro h
  simp only [resolve_next_recurring_base_due_ms] at h
  split_ifs at h with h1
  split at h
  all_goals first
  | exact resolveNextAux_ge nag reference_ms _ _ 2197 _ due h
  | exact absurd h (by simp)

theorem resolve_previous_le (nag : Nag) (reference_ms due : Int) :
    resolve_previous_recurring_base_due_ms nag reference_ms = some due → due ≤ reference_ms := by
  intro h
  simp only [resolve_previous_recurring_base_due_ms] at h
  split_ifs at h with h1
  split at h
  all_goals first
  | exact resolvePrevAux_le nag reference_ms _ _ 2197 _ due h
  | exact absurd h (by simp)

/-- The backward scan reads only the match-relevant fields: replayed with
any other nag whose date matching agrees, it returns the same result. -/
theorem resolvePrevAux_congr (nag1 nag2 : Nag) (reference_ms hour minute : Int)
    (hmatch : ∀ d, is_recurring_date_match nag1 d = is_recurring_date_match nag2 d) :
    ∀ (fuel : Nat) (probe : CalDate),
      resolvePrevAux nag1 reference_ms hour minute fuel probe =
        resolvePrevAux nag2 reference_ms hour minute fuel probe := by
  intro fuel
  induction fuel with
  | zero => intro probe; rfl
  | succ n ih =>
    intro probe
    simp only [resolvePrevAux, hmatch, ih]

/-- The forward scan is determined by date matching and the skip predicate. -/
theorem resolveNextAux_congr (nag1 nag2 : Nag) (reference_ms hour minute : Int)
    (hmatch : ∀ d, is_recurring_date_match nag1 d = is_recurring_date_match nag2 d)
    (hskip : ∀ ms, nag1.is_monthly_due_skipped ms = nag2.is_monthly_due_skipped ms) :
    ∀ (fuel : Nat) (probe : CalDate),
      resolveNextAux nag1 reference_ms hour minute fuel probe =
        resolveNextAux nag2 reference_ms hour minute fuel probe := by
  intro fuel
  induction fuel with
  | zero => intro probe; rfl
  | succ n ih =>
    intro probe
    simp only [resolveNextAux, hmatch, hskip, ih]

/-- Unpacking the current-display window. -/
theorem resolve_current_display_spec (nag : Nag) (reference_ms : Int) (w : DueWindow) :
    resolve_current_display_monthly_due_window nag reference_ms = some w →
      resolve_next_recurring_base_due_ms nag reference_ms = some w.source_due_ms ∧
      w.due_ms = apply_push_offset nag w.source_due_ms ∧
      w.start_ms =
        max (pyOrInt (resolve_previous_recurring_base_due_ms nag (w.source_due_ms - 1))
              nag.created_at_epoch_ms)
          nag.created_at_epoch_ms := by
  intro h
  simp only [resolve_current_display_monthly_due_window] at h
  split at h
  · exact absurd h (by simp)
  · rename_i base hbase
    rw [Option.some_inj] at h
    subst h
    exact ⟨hbase, rfl, rfl⟩

/-- The range scan: bounded length, windows inside the cursor/end bounds,
and strictly increasing source due instants. -/
theorem resolveRangeAux_spec (nag : Nag) (range_end_ms : Int) :
    ∀ (fuel : Nat) (cursor : Int),
      (resolveRangeAux nag range_end_ms fuel cursor).length ≤ fuel ∧
      (∀ w ∈ resolveRangeAux nag range_end_ms fuel cursor,
          cursor ≤ w.source_due_ms ∧ w.source_due_ms ≤ w.due_ms ∧ w.due_ms ≤ range_end_ms) ∧
      (resolveRangeAux nag range_end_ms fuel cursor).Pairwise
        (fun u v => u.source_due_ms < v.source_due_ms) := by
  intro fuel
  induction fuel with
  | zero => intro cursor; simp [resolveRangeAux]
  | succ n ih =>
    intro cursor
    simp only [resolveRangeAux]
    split
    · simp
    · rename_i base hbase
      split_ifs with h1
      · simp
      · obtain ⟨ihl, ihm, ihp⟩ := ih (base + 60000)
        have hge : cursor ≤ base := resolve_next_ge nag cursor base hbase
        refine ⟨?_, ?_, ?_⟩
        · simpa using ihl
        · intro w hw
          rcases List.mem_cons.mp hw with hww | hwt
          · subst hww
            refine ⟨by simp; omega, ?_, ?_⟩
            · simp only [apply_push_offset]
              omega
            · simp only [apply_push_offset] at h1 ⊢
              omega
          · obtain ⟨hw1, hw2, hw3⟩ := ihm w hwt
            exact ⟨by omega, hw2, hw3⟩
        · rw [List.pairwise_cons]
          refine ⟨?_, ihp⟩
          intro v hv
          have := (ihm v hv).1
          simp only []
          omega

/-! ## Rounding bounds -/

theorem pyRound_nonneg (a b : Int) (hb : 0 < b) (ha : 0 ≤ a) : 0 ≤ pyRound a b := by
  have hq : 0 ≤ a / b := Int.ediv_nonneg ha (le_of_lt hb)
  simp only [pyRound]
  split_ifs <;> omega

theorem pyRound_le_100 (a b : Int) (hb : 0 < b) (ha : a ≤ 100 * b) : pyRound a b ≤ 100 := by
  have heq : b * (a / b) + a % b = a := Int.ediv_add_emod a b
  have hr0 : 0 ≤ a % b := Int.emod_nonneg a (ne_of_gt hb)
  have hrb : a % b < b := Int.emod_lt_of_pos a hb
  have hq : a / b ≤ 100 := by
    by_contra hcon
    push_neg at hcon
    have h101 : b * 101 ≤ b * (a / b) := by
      apply mul_le_mul_of_nonneg_left (by omega) (le_of_lt hb)
    linarith
  have hq99 : ¬ 2 * (a % b) < b → a / b ≤ 99 := by
    intro hge
    by_contra hcon
    push_neg at hcon
    have he : a / b = 100 := le_antisymm hq (by omega)
    rw [he] at heq
    omega
  simp only [pyRound]
  split_ifs with h1 h2 h3
  · exact hq
  · have := hq99 h1
    omega
  · exact hq
  · have := hq99 h1
    omega

/-! ## sorted(set(...)) and the tail slice -/

theorem mem_insertSortedDedup (a : Int) :
    ∀ (l : List Int) (x : Int), x ∈ insertSortedDedup a l ↔ x = a ∨ x ∈ l := by
  intro l
  induction l with
  | nil => intro x; simp [insertSortedDedup]
  | cons b t ih =>
    intro x
    simp only [insertSortedDedup]
    split_ifs with h1 h2
    · simp only [List.mem_cons, ih]
      tauto
    · subst h2
      simp only [List.mem_cons]
      tauto
    · simp [List.mem_cons]

theorem insertSortedDedup_pairwise (a : Int) :
    ∀ l : List Int, l.Pairwise (· < ·) → (insertSortedDedup a l).Pairwise (· < ·) := by
  intro l
  induction l with
  | nil => intro _; simp [insertSortedDedup]
  | cons b t ih =>
    intro h
    rw [List.pairwise_cons] at h
    obtain ⟨hb, ht⟩ := h
    simp only [insertSortedDedup]
    split_ifs with h1 h2
    · rw [List.pairwise_cons]
      refine ⟨?_, ih ht⟩
      intro x hx
      rcases (mem_insertSortedDedup a t x).mp hx with hxa | hxt
      · omega
      · exact hb x hxt
    · subst h2
      rw [List.pairwise_cons]
      exact ⟨hb, ht⟩
    · rw [List.pairwise_cons]
      refine ⟨?_, ?_⟩
      · intro x hx
        rcases List.mem_cons.mp hx with hxb | hxt
        · omega
        · have := hb x hxt
          omega
      · rw [List.pairwise_cons]
        exact ⟨hb, ht⟩

theorem pySortedSet_pairwise : ∀ l : List Int, (pySortedSet l).Pairwise (· < ·) := by
  intro l
  induction l with
  | nil => simp [pySortedSet]
  | cons a t ih => exact insertSortedDedup_pairwise a _ ih

theorem mem_pySortedSet : ∀ (l : List Int) (x : Int), x ∈ pySortedSet l ↔ x ∈ l := by
  intro l
  induction l with
  | nil => intro x; simp [pySortedSet]
  | cons a t ih =>
    intro x
    simp only [pySortedSet, List.foldr_cons] at ih ⊢
    rw [mem_insertSortedDedup, ih, List.mem_cons]

theorem lastSlice_length (n : Nat) (l : List Int) : (lastSlice n l).length ≤ n := by
  simp only [lastSlice, List.length_drop]
  omega

theorem lastSlice_pairwise (n : Nat) (l : List Int) (h : l.Pairwise (· < ·)) :
    (lastSlice n l).Pairwise (· < ·) :=
  h.sublist (List.drop_sublist _ _)

/-! ## Lexicographic tuple comparisons -/

theorem tuple2Le_total (a b : Int × Int) : (tuple2Le a b || tuple2Le b a) = true := by
  obtain ⟨a1, a2⟩ := a
  obtain ⟨b1, b2⟩ := b
  simp only [tuple2Le, Bool.or_eq_true, Bool.and_eq_true, decide_eq_true_eq]
  omega

theorem tuple2Le_trans (a b c : Int × Int) :
    tuple2Le a b = true → tuple2Le b c = true → tuple2Le a c = true := by
  obtain ⟨a1, a2⟩ := a
  obtain ⟨b1, b2⟩ := b
  obtain ⟨c1, c2⟩ := c
  simp only [tuple2Le, Bool.or_eq_true, Bool.and_eq_true, decide_eq_true_eq]
  omega

theorem tuple3Le_total (a b : Int × Int × Int) : (tuple3Le a b || tuple3Le b a) = true := by
  obtain ⟨a1, a2, a3⟩ := a
  obtain ⟨b1, b2, b3⟩ := b
  simp only [tuple3Le, tuple2Le, Bool.or_eq_true, Bool.and_eq_true, decide_eq_true_eq]
  omega

theorem tuple3Le_trans (a b c : Int × Int × Int) :
    tuple3Le a b = true → tuple3Le b c = true → tuple3Le a c = true := by
  obtain ⟨a1, a2, a3⟩ := a
  obtain ⟨b1, b2, b3⟩ := b
  obtain ⟨c1, c2, c3⟩ := c
  simp only [tuple3Le, tuple2Le, Bool.or_eq_true, Bool.and_eq_true, decide_eq_true_eq]
  omega

theorem tuple4Le_total (a b : Int × Int × Int × Int) : (tuple4Le a b || tuple4Le b a) = true := by
  obtain ⟨a1, a2, a3, a4⟩ := a
  obtain ⟨b1, b2, b3, b4⟩ := b
  simp only [tuple4Le, tuple3Le, tuple2Le, Bool.or_eq_true, Bool.and_eq_true, decide_eq_true_eq]
  omega

theorem tuple4Le_trans (a b c : Int × Int × Int × Int) :
    tuple4Le a b = true → tuple4Le b c = true → tuple4Le a c = true := by
  obtain ⟨a1, a2, a3, a4⟩ := a
  obtain ⟨b1, b2, b3, b4⟩ := b
  obtain ⟨c1, c2, c3, c4⟩ := c
  simp only [tuple4Le, tuple3Le, tuple2Le, Bool.or_eq_true, Bool.and_eq_true, decide_eq_true_eq]
  omega

/-! ## Calendar lemmas for the nth-weekday pattern -/

theorem days_from_civil_day_step (y m d : Int) :
    days_from_civil y m d = days_from_civil y m 1 + (d - 1) := by
  simp only [days_from_civil]
  split_ifs <;> omega

theorem month_max_day_ge_28 (y m : Int) : 28 ≤ month_max_day y m := by
  simp only [month_max_day]
  split_ifs <;> omega

theorem java_day_of_week_exists (y m t : Int) (h1 : 1 ≤ t) (h7 : t ≤ 7) :
    ∃ d, 1 ≤ d ∧ d ≤ 7 ∧ java_day_of_week ⟨y, m, d⟩ = t := by
  refine ⟨(t - 5 - days_from_civil y m 1) % 7 + 1, ?_, ?_, ?_⟩
  · omega
  · omega
  · simp only [java_day_of_week, python_weekday]
    rw [days_from_civil_day_step]
    omega

theorem mem_weekdayMatchesUpTo (y m t : Int) :
    ∀ (n : Nat) (x : Int),
      x ∈ weekdayMatchesUpTo y m t n ↔
        (1 ≤ x ∧ x ≤ (n : Int) ∧ java_day_of_week ⟨y, m, x⟩ = t) := by
  intro n
  induction n with
  | zero =>
    intro x
    simp only [weekdayMatchesUpTo, List.not_mem_nil, false_iff]
    intro hcon
    omega
  | succ n ih =>
    intro x
    simp only [weekdayMatchesUpTo, List.mem_append]
    by_cases hc : java_day_of_week ⟨y, m, (n : Int) + 1⟩ = t
    · rw [if_pos hc]
      simp only [List.mem_singleton, ih]
      constructor
      · rintro (⟨hx1, hx2, hx3⟩ | hx)
        · refine ⟨hx1, by push_cast; omega, hx3⟩
        · subst hx
          exact ⟨by omega, by push_cast; omega, hc⟩
      · rintro ⟨hx1, hx2, hx3⟩
        by_cases hx : x = (n : Int) + 1
        · exact Or.inr hx
        · push_cast at hx2
          exact Or.inl ⟨hx1, by omega, hx3⟩
    · rw [if_neg hc]
      simp only [List.not_mem_nil, or_false, ih]
      constructor
      · rintro ⟨hx1, hx2, hx3⟩
        exact ⟨hx1, by push_cast; omega, hx3⟩
      · rintro ⟨hx1, hx2, hx3⟩
        refine ⟨hx1, ?_, hx3⟩
        by_cases hx : x = (n : Int) + 1
        · subst hx
          exact absurd hx3 hc
        · push_cast at hx2
          omega

theorem weekdayMatches_ne_nil (y m t : Int) (h1 : 1 ≤ t) (h7 : t ≤ 7) :
    weekdayMatches y m t ≠ [] := by
  obtain ⟨d, hd1, hd7, hdw⟩ := java_day_of_week_exists y m t h1 h7
  intro hnil
  have h28 := month_max_day_ge_28 y m
  have hcast : ((month_max_day y m).toNat : Int) = month_max_day y m :=
    Int.toNat_of_nonneg (by omega)
  have hmem : d ∈ weekdayMatches y m t := by
    rw [weekdayMatches, mem_weekdayMatchesUpTo]
    exact ⟨hd1, by omega, hdw⟩
  rw [hnil] at hmem
  exact absurd hmem (List.not_mem_nil d)

/-- Every member of weekdayMatches is a day of the month on the target
weekday. -/
theorem mem_weekdayMatches (y m t x : Int) :
    x ∈ weekdayMatches y m t ↔
      (1 ≤ x ∧ x ≤ month_max_day y m ∧ java_day_of_week ⟨y, m, x⟩ = t) := by
  have h28 := month_max_day_ge_28 y m
  have hcast : ((month_max_day y m).toNat : Int) = month_max_day y m :=
    Int.toNat_of_nonneg (by omega)
  rw [weekdayMatches, mem_weekdayMatchesUpTo, hcast]

/-! ## Congruence of the scans in the fields they read -/

theorem resolve_previous_congr (nag1 nag2 : Nag)
    (hmode : nag1.mode = nag2.mode)
    (hhour : nag1.monthly_hour = nag2.monthly_hour)
    (hmin : nag1.monthly_minute = nag2.monthly_minute)
    (hmatch : ∀ d, is_recurring_date_match nag1 d = is_recurring_date_match nag2 d)
    (reference_ms : Int) :
    resolve_previous_recurring_base_due_ms nag1 reference_ms =
      resolve_previous_recurring_base_due_ms nag2 reference_ms := by
  simp only [resolve_previous_recurring_base_due_ms, hmode, hhour, hmin]
  split_ifs with h
  · rfl
  · cases nag2.monthly_hour with
    | none => rfl
    | some hour =>
      cases nag2.monthly_minute with
      | none => rfl
      | some minute =>
        exact resolvePrevAux_congr nag1 nag2 reference_ms hour minute hmatch 2197
          (msToDate reference_ms)

theorem resolve_next_congr (nag1 nag2 : Nag)
    (hmode : nag1.mode = nag2.mode)
    (hhour : nag1.monthly_hour = nag2.monthly_hour)
    (hmin : nag1.monthly_minute = nag2.monthly_minute)
    (hmatch : ∀ d, is_recurring_date_match nag1 d = is_recurring_date_match nag2 d)
    (hskip : ∀ ms, nag1.is_monthly_due_skipped ms = nag2.is_monthly_due_skipped ms)
    (reference_ms : Int) :
    resolve_next_recurring_base_due_ms nag1 reference_ms =
      resolve_next_recurring_base_due_ms nag2 reference_ms := by
  simp only [resolve_next_recurring_base_due_ms, hmode, hhour, hmin]
  split_ifs with h
  · rfl
  · cases nag2.monthly_hour with
    | none => rfl
    | some hour =>
      cases nag2.monthly_minute with
      | none => rfl
      | some minute =>
        exact resolveNextAux_congr nag1 nag2 reference_ms hour minute hmatch hskip 2197
          (msToDate reference_ms)

/-- The backward scan never consults the skipped-occurrence list: its result
is the same for every value of that list. -/
theorem resolve_previous_skip_independent (nag : Nag) (s : List Int) (reference_ms : Int) :
    resolve_previous_recurring_base_due_ms { nag with skipped_monthly_due_epoch_ms := s }
        reference_ms =
      resolve_previous_recurring_base_due_ms nag reference_ms :=
  resolve_previous_congr { nag with skipped_monthly_due_epoch_ms := s } nag rfl rfl rfl
    (fun _ => rfl) reference_ms

/-- Pushing changes none of the fields the base-due scan reads. -/
theorem resolve_next_base_push_invariant (nag : Nag) (p : Int) (reference_ms : Int) :
    resolve_next_recurring_base_due_ms (push_selected_update nag p) reference_ms =
      resolve_next_recurring_base_due_ms nag reference_ms :=
  resolve_next_congr (push_selected_update nag p) nag rfl rfl rfl
    (fun _ => rfl) (fun _ => rfl) reference_ms

/-! # Claim theorems -/

/-- C1: for every MONTHLY reminder (indeed every reminder) and reference
instant, resolve_next returns no result or a base due ≥ the reference,
resolve_previous returns no result or a base due ≤ the reference, and the
backward scan never filters on the skipped-occurrence set: its result is
the same for every value of the skipped list. -/
theorem C1_next_prev_reference_bounds (nag : Nag) (reference_ms : Int) :
    (∀ due, resolve_next_recurring_base_due_ms nag reference_ms = some due →
        reference_ms ≤ due) ∧
    (∀ due, resolve_previous_recurring_base_due_ms nag reference_ms = some due →
        due ≤ reference_ms) ∧
    (∀ s, resolve_previous_recurring_base_due_ms
        { nag with skipped_monthly_due_epoch_ms := s } reference_ms =
      resolve_previous_recurring_base_due_ms nag reference_ms) :=
  ⟨fun due h => resolve_next_ge nag reference_ms due h,
   fun due h => resolve_previous_le nag reference_ms due h,
   fun s => resolve_previous_skip_independent nag s reference_ms⟩

/-- A weekly (Thursday, Java day 5) monthly-mode nag used to exhibit the
resolvers actually producing results. -/
def c1_nag : Nag :=
  { work_name := "w", nag_text := "t", bucket := "Work", project_name := none,
    lateness_days := 7, mode := "MONTHLY", repeat_minutes := 60, continue_minutes := none,
    notifications_enabled := true, weight := 50, one_time_epoch_ms := none,
    monthly_day := none, monthly_hour := some 0, monthly_minute := some 0,
    created_at_epoch_ms := 0,
    recurring_pattern_type := "DAY_OF_WEEK", recurring_day_of_week := some 5 }

/-- C1 witness: at reference 0 the forward scan of c1_nag resolves
1970-01-01 00:00 (epoch 0), and the bound from C1 applies to it. -/
theorem C1_witness : (0 : Int) ≤ 0 :=
  (C1_next_prev_reference_bounds c1_nag 0).1 0 (by decide)

/-- A weekly Thursday nag whose creation instant lies far after the
resolved occurrence (the payload field createdAtEpochMillis is free). -/
def c2_nag : Nag :=
  { work_name := "w", nag_text := "t", bucket := "Work", project_name := none,
    lateness_days := 7, mode := "MONTHLY", repeat_minutes := 60, continue_minutes := none,
    notifications_enabled := true, weight := 50, one_time_epoch_ms := none,
    monthly_day := none, monthly_hour := some 0, monthly_minute := some 0,
    created_at_epoch_ms := 1000000000000,
    recurring_pattern_type := "DAY_OF_WEEK", recurring_day_of_week := some 5 }

/-- C2 counterexample: the monthly current-display window of c2_nag at
reference 0 is start = 10^12, due = 0, source_due = 0, violating the
claimed start ≤ source_due (the window start is clamped UP to created_at,
which here lies after the resolved occurrence). -/
theorem C2_counterexample :
    resolve_current_display_monthly_due_window c2_nag 0 =
        some ⟨1000000000000, 0, 0⟩ ∧
      ¬ ((1000000000000 : Int) ≤ (0 : Int)) :=
  ⟨by decide, by decide⟩

/-- C2 (amended): every due window satisfies source_due ≤ due; start ≤
source_due holds unconditionally for ONE_TIME windows, and for monthly
windows whenever created_at ≤ source_due (the reference-after-creation
case); a monthly window resolved before the creation instant has its start
clamped up to created_at and may exceed source_due. -/
theorem C2_due_window_bounds (nag : Nag) (now_ms_value : Int) (w : DueWindow)
    (h : resolve_due_window nag now_ms_value = some w) :
    w.source_due_ms ≤ w.due_ms ∧
    (nag.mode = NAG_MODE_ONE_TIME → w.start_ms ≤ w.source_due_ms) ∧
    (nag.created_at_epoch_ms ≤ w.source_due_ms → w.start_ms ≤ w.source_due_ms) := by
  simp only [resolve_due_window] at h
  split_ifs at h with hmode
  · cases hot : nag.one_time_epoch_ms with
    | none => rw [hot] at h; exact absurd h (by simp)
    | some base =>
      rw [hot] at h
      rw [Option.some_inj] at h
      subst h
      refine ⟨?_, ?_, ?_⟩
      · simp only [apply_push_offset]
        omega
      · intro _
        simp only []
        omega
      · intro _
        simp only []
        omega
  · obtain ⟨hnext, hdue, hstart⟩ := resolve_current_display_spec nag now_ms_value w h
    refine ⟨?_, ?_, ?_⟩
    · rw [hdue]
      simp only [apply_push_offset]
      omega
    · intro hc
      exact absurd hc hmode
    · intro hc
      rw [hstart]
      cases hprev : resolve_previous_recurring_base_due_ms nag (w.source_due_ms - 1) with
      | none => simp only [pyOrInt]; omega
      | some p =>
        have hple : p ≤ w.source_due_ms - 1 :=
          resolve_previous_le nag (w.source_due_ms - 1) p hprev
        simp only [pyOrInt]
        split_ifs <;> omega

/-- A one-time nag for the C2 witness. -/
def c2_wnag : Nag :=
  { work_name := "w", nag_text := "t", bucket := "Work", project_name := none,
    lateness_days := 7, mode := "ONE_TIME", repeat_minutes := 60, continue_minutes := none,
    notifications_enabled := true, weight := 50, one_time_epoch_ms := some 1000,
    monthly_day := none, monthly_hour := none, monthly_minute := none,
    created_at_epoch_ms := 500 }

/-- C2 witness: the amended bounds applied to the concrete one-time window
start = 500, due = 1000, source_due = 1000. -/
theorem C2_witness : (1000 : Int) ≤ 1000 :=
  (C2_due_window_bounds c2_wnag 0 ⟨500, 1000, 1000⟩ (by decide)).1

/-- C3 counterexample: one day past a due instant with a one-day lateness
window, the percent is 200, above the claimed upper clamp of 100 (the
overdue branch never clamps from above). -/
theorem C3_counterexample :
    progress_percent 172800000 0 0 1 = 200 ∧
      ¬ (progress_percent 172800000 0 0 1 ≤ 100) :=
  ⟨by decide, by decide⟩

/-- C3 (amended): the percent label value is always an integer ≥ 0; before
the due instant it is the elapsed fraction of [start, due] and is also
≤ 100; when overdue it is the elapsed fraction of the lateness window
floored at 0 but NOT capped at 100. -/
theorem C3_percent_bounds (now_ms_value start_ms due_ms lateness_days : Int) :
    0 ≤ progress_percent now_ms_value start_ms due_ms lateness_days ∧
    (now_ms_value ≤ due_ms →
      progress_percent now_ms_value start_ms due_ms lateness_days ≤ 100) := by
  constructor
  · simp only [progress_percent, overdue_window_ms]
    split_ifs with h
    · exact pyRound_nonneg _ _ (by omega) (by omega)
    · exact pyRound_nonneg _ _ (by omega) (by omega)
  · intro h
    simp only [progress_percent, if_pos h]
    exact pyRound_le_100 _ _ (by omega) (by omega)

/-- C3 witness: halfway through a window the percent is within bounds. -/
theorem C3_witness : progress_percent 50 0 100 7 ≤ 100 :=
  (C3_percent_bounds 50 0 100 7).2 (by decide)

/-- C8: the range query is total (the model is structurally bounded by the
guard fuel of 600), returns at most 600 windows, every returned pushed due
instant lies within [range_start, range_end], and source due instants are
strictly increasing along the list (each cursor advances to the matched
base due plus 60 s). -/
theorem C8_range_query_bounds (nag : Nag) (range_start_ms range_end_ms : Int) :
    (resolve_monthly_due_windows_in_range nag range_start_ms range_end_ms).length ≤ 600 ∧
    (∀ w ∈ resolve_monthly_due_windows_in_range nag range_start_ms range_end_ms,
        range_start_ms ≤ w.due_ms ∧ w.due_ms ≤ range_end_ms) ∧
    (resolve_monthly_due_windows_in_range nag range_start_ms range_end_ms).Pairwise
      (fun u v => u.source_due_ms < v.source_due_ms) := by
  simp only [resolve_monthly_due_windows_in_range]
  split_ifs with h
  · simp
  · obtain ⟨hl, hm, hp⟩ := resolveRangeAux_spec nag range_end_ms 600 range_start_ms
    refine ⟨hl, ?_, hp⟩
    intro w hw
    obtain ⟨h1, h2, h3⟩ := hm w hw
    exact ⟨by omega, h3⟩

/-- A weekly Thursday nag created at epoch 0, for the C8 witness. -/
def c8_nag : Nag :=
  { work_name := "w", nag_text := "t", bucket := "Work", project_name := none,
    lateness_days := 7, mode := "MONTHLY", repeat_minutes := 60, continue_minutes := none,
    notifications_enabled := true, weight := 50, one_time_epoch_ms := none,
    monthly_day := none, monthly_hour := some 0, monthly_minute := some 0,
    created_at_epoch_ms := 0,
    recurring_pattern_type := "DAY_OF_WEEK", recurring_day_of_week := some 5 }

/-- C8 witness: the bound applied to a concrete ten-day range. -/
theorem C8_witness :
    (resolve_monthly_due_windows_in_range c8_nag 0 864000000).length ≤ 600 :=
  (C8_range_query_bounds c8_nag 0 864000000).1

/-- C9: applying a push with positive duration to a reminder whose push
counters are non-negative (as validated construction guarantees) strictly
increases pushed_offset_ms, push_count and pushed_total_ms, leaves every
other field unchanged, and never decreases the resolved next due instant
at any reference. -/
theorem C9_push_monotone (nag : Nag) (push_ms : Int)
    (hpos : 0 < push_ms)
    (ho : 0 ≤ nag.pushed_offset_ms)
    (hc : 0 ≤ nag.push_count)
    (ht : 0 ≤ nag.pushed_total_ms) :
    nag.pushed_offset_ms < (push_selected_update nag push_ms).pushed_offset_ms ∧
    nag.push_count < (push_selected_update nag push_ms).push_count ∧
    nag.pushed_total_ms < (push_selected_update nag push_ms).pushed_total_ms ∧
    (push_selected_update nag push_ms).work_name = nag.work_name ∧
    (push_selected_update nag push_ms).nag_text = nag.nag_text ∧
    (push_selected_update nag push_ms).bucket = nag.bucket ∧
    (push_selected_update nag push_ms).project_name = nag.project_name ∧
    (push_selected_update nag push_ms).lateness_days = nag.lateness_days ∧
    (push_selected_update nag push_ms).mode = nag.mode ∧
    (push_selected_update nag push_ms).repeat_minutes = nag.repeat_minutes ∧
    (push_selected_update nag push_ms).continue_minutes = nag.continue_minutes ∧
    (push_selected_update nag push_ms).notifications_enabled = nag.notifications_enabled ∧
    (push_selected_update nag push_ms).weight = nag.weight ∧
    (push_selected_update nag push_ms).one_time_epoch_ms = nag.one_time_epoch_ms ∧
    (push_selected_update nag push_ms).monthly_day = nag.monthly_day ∧
    (push_selected_update nag push_ms).monthly_hour = nag.monthly_hour ∧
    (push_selected_update nag push_ms).monthly_minute = nag.monthly_minute ∧
    (push_selected_update nag push_ms).created_at_epoch_ms = nag.created_at_epoch_ms ∧
    (push_selected_update nag push_ms).skipped_monthly_due_epoch_ms =
      nag.skipped_monthly_due_epoch_ms ∧
    (push_selected_update nag push_ms).icon_glyph = nag.icon_glyph ∧
    (push_selected_update nag push_ms).icon_png_base64 = nag.icon_png_base64 ∧
    (push_selected_update nag push_ms).image_url = nag.image_url ∧
    (push_selected_update nag push_ms).recurring_pattern_type = nag.recurring_pattern_type ∧
    (push_selected_update nag push_ms).recurring_day_of_week = nag.recurring_day_of_week ∧
    (push_selected_update nag push_ms).recurring_nth_week = nag.recurring_nth_week ∧
    (push_selected_update nag push_ms).recurring_month_of_year = nag.recurring_month_of_year ∧
    (push_selected_update nag push_ms).recurring_quarter_anchor_month =
      nag.recurring_quarter_anchor_month ∧
    (push_selected_update nag push_ms).recurring_visible_days_before_due =
      nag.recurring_visible_days_before_due ∧
    (∀ reference_ms due, resolve_next_due_ms nag reference_ms = some due →
        ∃ duePushed, resolve_next_due_ms (push_selected_update nag push_ms) reference_ms =
            some duePushed ∧ due ≤ duePushed) := by
  refine ⟨?_, ?_, ?_, rfl, rfl, rfl, rfl, rfl, rfl, rfl, rfl, rfl, rfl, rfl, rfl, rfl, rfl,
    rfl, rfl, rfl, rfl, rfl, rfl, rfl, rfl, rfl, rfl, rfl, ?_⟩
  · simp only [push_selected_update]
    omega
  · simp only [push_selected_update]
    omega
  · simp only [push_selected_update]
    omega
  · intro reference_ms due h
    have hmode : (push_selected_update nag push_ms).mode = nag.mode := rfl
    have hone : (push_selected_update nag push_ms).one_time_epoch_ms =
        nag.one_time_epoch_ms := rfl
    simp only [resolve_next_due_ms, hmode, hone] at h ⊢
    split_ifs at h ⊢ with hm
    · cases hot : nag.one_time_epoch_ms with
      | none => rw [hot] at h; exact absurd h (by simp)
      | some base =>
        rw [hot] at h
        simp only [Option.some_inj] at h
        refine ⟨apply_push_offset (push_selected_update nag push_ms) base, rfl, ?_⟩
        subst h
        simp only [apply_push_offset, push_selected_update]
        omega
    · rw [resolve_next_base_push_invariant]
      cases hb : resolve_next_recurring_base_due_ms nag reference_ms with
      | none => rw [hb] at h; exact absurd h (by simp)
      | some base =>
        rw [hb] at h
        simp only [Option.some_inj] at h
        refine ⟨apply_push_offset (push_selected_update nag push_ms) base, rfl, ?_⟩
        subst h
        simp only [apply_push_offset, push_selected_update]
        omega

/-- A one-time nag with zeroed push counters, for the C9 witness. -/
def c9_nag : Nag :=
  { work_name := "w", nag_text := "t", bucket := "Work", project_name := none,
    lateness_days := 7, mode := "ONE_TIME", repeat_minutes := 60, continue_minutes := none,
    notifications_enabled := true, weight := 50, one_time_epoch_ms := some 1000,
    monthly_day := none, monthly_hour := none, monthly_minute := none,
    created_at_epoch_ms := 500 }

/-- C9 witness: a concrete push of 5 ms strictly increases the offset. -/
theorem C9_witness :
    c9_nag.pushed_offset_ms < (push_selected_update c9_nag 5).pushed_offset_ms :=
  (C9_push_monotone c9_nag 5 (by decide) (by decide) (by decide) (by decide)).1

/-- A MONTHLY nag whose pattern tag is the empty string. -/
def c10_nag : Nag :=
  { work_name := "w", nag_text := "t", bucket := "Work", project_name := none,
    lateness_days := 7, mode := "MONTHLY", repeat_minutes := 60, continue_minutes := none,
    notifications_enabled := true, weight := 50, one_time_epoch_ms := none,
    monthly_day := some 1, monthly_hour := some 0, monthly_minute := some 0,
    created_at_epoch_ms := 0,
    recurring_pattern_type := "" }

/-- C10 counterexample: the empty pattern string is not one of the six
recognized patterns, yet Python or-defaulting replaces it with
DAY_OF_MONTH, so the date-match predicate can return true: the claim that
every unrecognized pattern never matches is false for the empty string. -/
theorem C10_counterexample :
    c10_nag.recurring_pattern_type ∉ PATTERN_OPTIONS ∧
      is_recurring_date_match c10_nag ⟨2024, 1, 1⟩ = true :=
  ⟨by decide, by decide⟩

/-- C10 (amended): for every reminder whose pattern tag is neither one of
the six recognized patterns nor the empty string (the empty string falls
back to DAY_OF_MONTH through Python or-defaulting), the date-match
predicate is false on every date, the forward and backward resolutions
return no result, and the current-display window resolution is absent —
never an error or a fallback. -/
theorem C10_unknown_pattern (nag : Nag)
    (hpat : nag.recurring_pattern_type ∉ PATTERN_OPTIONS)
    (hne : nag.recurring_pattern_type ≠ "") :
    (∀ d, is_recurring_date_match nag d = false) ∧
    (∀ reference_ms, resolve_next_recurring_base_due_ms nag reference_ms = none) ∧
    (∀ reference_ms, resolve_previous_recurring_base_due_ms nag reference_ms = none) ∧
    (∀ reference_ms, resolve_current_display_monthly_due_window nag reference_ms = none) := by
  simp only [PATTERN_OPTIONS, List.mem_cons, List.not_mem_nil, or_false] at hpat
  push_neg at hpat
  obtain ⟨hp1, hp2, hp3, hp4, hp5, hp6⟩ := hpat
  have hfalse : ∀ d, is_recurring_date_match nag d = false := by
    intro d
    simp only [is_recurring_date_match, pyOrStr, if_neg hne, if_neg hp1, if_neg hp2,
      if_neg hp3, if_neg hp4, if_neg hp5, if_neg hp6]
    split_ifs <;> rfl
  have hnone : ∀ reference_ms, resolve_next_recurring_base_due_ms nag reference_ms = none := by
    intro reference_ms
    simp only [resolve_next_recurring_base_due_ms]
    split_ifs with h
    · rfl
    · cases nag.monthly_hour with
      | none => rfl
      | some hour =>
        cases nag.monthly_minute with
        | none => rfl
        | some minute =>
          have haux : ∀ (fuel : Nat) (probe : CalDate),
              resolveNextAux nag reference_ms hour minute fuel probe = none := by
            intro fuel
            induction fuel with
            | zero => intro probe; rfl
            | succ n ih =>
              intro probe
              simp only [resolveNextAux, hfalse, Bool.false_eq_true, if_false, ih]
          exact haux 2197 (msToDate reference_ms)
  have hprev : ∀ reference_ms,
      resolve_previous_recurring_base_due_ms nag reference_ms = none := by
    intro reference_ms
    simp only [resolve_previous_recurring_base_due_ms]
    split_ifs with h
    · rfl
    · cases nag.monthly_hour with
      | none => rfl
      | some hour =>
        cases nag.monthly_minute with
        | none => rfl
        | some minute =>
          have haux : ∀ (fuel : Nat) (probe : CalDate),
              resolvePrevAux nag reference_ms hour minute fuel probe = none := by
            intro fuel
            induction fuel with
            | zero => intro probe; rfl
            | succ n ih =>
              intro probe
              simp only [resolvePrevAux, hfalse, Bool.false_eq_true, if_false, ih]
          exact haux 2197 (msToDate reference_ms)
  refine ⟨hfalse, hnone, hprev, ?_⟩
  intro reference_ms
  simp only [resolve_current_display_monthly_due_window, hnone]

/-- A MONTHLY nag with an unrecognized (nonempty) pattern tag, for the C10
witness. -/
def c10_wnag : Nag :=
  { work_name := "w", nag_text := "t", bucket := "Work", project_name := none,
    lateness_days := 7, mode := "MONTHLY", repeat_minutes := 60, continue_minutes := none,
    notifications_enabled := true, weight := 50, one_time_epoch_ms := none,
    monthly_day := some 1, monthly_hour := some 0, monthly_minute := some 0,
    created_at_epoch_ms := 0,
    recurring_pattern_type := "BOGUS_PATTERN" }

/-- C10 witness: the unrecognized tag BOGUS_PATTERN yields no next base
due at reference 0. -/
theorem C10_witness : resolve_next_recurring_base_due_ms c10_wnag 0 = none :=
  (C10_unknown_pattern c10_wnag (by decide) (by decide)).2.1 0

/-- A payload with 201 distinct skipped occurrences (valid otherwise). -/
def c4_payload : Payload :=
  { workName := "w", nagText := "t", createdAtEpochMillis := some 0,
    skippedMonthlyDueEpochMillis := (List.range 201).map (fun n => (n : Int)) }

set_option maxRecDepth 80000 in
/-- C4 counterexample: validated construction performs no 200-entry cap: a
payload carrying 201 distinct skipped occurrences constructs a Reminder
whose skipped list has 201 > 200 entries. -/
theorem C4_counterexample :
    ((Nag.from_payload c4_payload 0).map
        (fun n => n.skipped_monthly_due_epoch_ms.length)).getD 0 = 201 ∧
      ¬ ((201 : Nat) ≤ 200) :=
  ⟨by decide, by decide⟩

/-- C4 (amended): every Reminder produced by validated construction or by
the complete-occurrence update has a strictly ascending (hence sorted and
duplicate-free) skipped-occurrence list; the complete-occurrence update
additionally caps the list at the most recent 200 entries, but validated
construction applies no cap. -/
theorem C4_skipped_list_invariants :
    (∀ (payload : Payload) (now_ms_value : Int) (nag : Nag),
        Nag.from_payload payload now_ms_value = some nag →
        nag.skipped_monthly_due_epoch_ms.Pairwise (· < ·)) ∧
    (∀ (nag : Nag) (source_due : Int),
        (complete_selected_occurrence_update nag
            source_due).skipped_monthly_due_epoch_ms.Pairwise (· < ·) ∧
        (complete_selected_occurrence_update nag
            source_due).skipped_monthly_due_epoch_ms.length ≤ 200) := by
  constructor
  · intro payload now_ms_value nag h
    simp only [Nag.from_payload] at h
    split_ifs at h
    all_goals rw [Option.some_inj] at h
    all_goals subst h
    all_goals exact pySortedSet_pairwise _
  · intro nag source_due
    have hs : (complete_selected_occurrence_update nag
          source_due).skipped_monthly_due_epoch_ms =
        lastSlice 200 (pySortedSet (nag.skipped_monthly_due_epoch_ms ++ [source_due])) := by
      unfold complete_selected_occurrence_update
      with_reducible rfl
    constructor
    · rw [hs]
      exact lastSlice_pairwise 200 _ (pySortedSet_pairwise _)
    · rw [hs]
      exact lastSlice_length 200 _

/-- A small well-formed payload for the C4 witness. -/
def c4_wpayload : Payload :=
  { workName := "w", nagText := "t", createdAtEpochMillis := some 0,
    skippedMonthlyDueEpochMillis := [3, 1, 2] }

/-- The Reminder c4_wpayload constructs. -/
def c4_wnag : Nag :=
  { work_name := "w", nag_text := "t", bucket := "Work", project_name := none,
    lateness_days := 7, mode := "ONE_TIME", repeat_minutes := 60, continue_minutes := none,
    notifications_enabled := true, weight := 50, one_time_epoch_ms := none,
    monthly_day := none, monthly_hour := none, monthly_minute := none,
    created_at_epoch_ms := 0, skipped_monthly_due_epoch_ms := [1, 2, 3] }

/-- C4 witness: a concrete constructed Reminder has its skipped list
strictly ascending. -/
theorem C4_witness : c4_wnag.skipped_monthly_due_epoch_ms.Pairwise (· < ·) :=
  C4_skipped_list_invariants.1 c4_wpayload 0 c4_wnag (by decide)

/-- Two rows that tie on created_at and write the same work name with
different texts. -/
def c5_rowA : EventRow :=
  { created_at := "2024-01-01T00:00:00",
    payload := some { workName := "w", nagText := "a", createdAtEpochMillis := some 5 } }

def c5_rowB : EventRow :=
  { created_at := "2024-01-01T00:00:00",
    payload := some { workName := "w", nagText := "b", createdAtEpochMillis := some 5 } }

/-- C5 counterexample: both input orders of the two equal-timestamp rows
are (weakly) ascending by created_at, yet the reconciler yields different
final maps — the stable sort preserves the input order of ties, so
last-write-wins depends on it.  The claimed determinism fails for rows
with equal created_at. -/
theorem C5_counterexample :
    List.Perm [c5_rowA, c5_rowB] [c5_rowB, c5_rowA] ∧
    pyStrLe c5_rowA.created_at c5_rowB.created_at = true ∧
    pyStrLe c5_rowB.created_at c5_rowA.created_at = true ∧
    rebuild_current_nags_from_events [c5_rowA, c5_rowB] 0 ≠
      rebuild_current_nags_from_events [c5_rowB, c5_rowA] 0 := by
  refine ⟨List.Perm.swap _ _ _, by decide, by decide, ?_⟩
  intro h
  have h2 := congrFun h "w"
  have ha : (rebuild_current_nags_from_events [c5_rowA, c5_rowB] 0 "w").map Nag.nag_text =
      some "b" := by decide
  have hb : (rebuild_current_nags_from_events [c5_rowB, c5_rowA] 0 "w").map Nag.nag_text =
      some "a" := by decide
  rw [h2] at ha
  exact absurd (ha.symm.trans hb) (by decide)

/-- C5 (amended): when the rows carry pairwise-distinct created_at keys,
replaying any permutation of the row set produces the identical final
reminder map; with equal created_at keys the result depends on the input
order of the ties. -/
theorem C5_reconciler_deterministic (l1 l2 : List EventRow) (now_ms_value : Int)
    (hperm : List.Perm l1 l2)
    (hnodup : (l1.map EventRow.created_at).Nodup) :
    rebuild_current_nags_from_events l1 now_ms_value =
      rebuild_current_nags_from_events l2 now_ms_value := by
  have htotal : ∀ x y : EventRow,
      ((fun a b => pyStrLe a.created_at b.created_at) x y ||
       (fun a b => pyStrLe a.created_at b.created_at) y x) = true :=
    fun x y => pyStrLe_total x.created_at y.created_at
  have htrans : ∀ x y z : EventRow,
      (fun a b => pyStrLe a.created_at b.created_at) x y = true →
      (fun a b => pyStrLe a.created_at b.created_at) y z = true →
      (fun a b => pyStrLe a.created_at b.created_at) x z = true :=
    fun x y z hxy hyz => pyStrLe_trans x.created_at y.created_at z.created_at hxy hyz
  have hs : pySorted (fun a b => pyStrLe a.created_at b.created_at) l1 =
      pySorted (fun a b => pyStrLe a.created_at b.created_at) l2 := by
    apply eq_of_perm_of_pairwise (fun a b => pyStrLe a.created_at b.created_at)
    · exact (pySorted_perm _ l1).trans (hperm.trans (pySorted_perm _ l2).symm)
    · exact pySorted_pairwise _ htotal htrans l1
    · exact pySorted_pairwise _ htotal htrans l2
    · intro x y hx hy hxy hyx
      have hx1 : x ∈ l1 := (pySorted_perm _ l1).subset hx
      have hy1 : y ∈ l1 := (pySorted_perm _ l1).subset hy
      have hkey : x.created_at = y.created_at :=
        pyStrLe_antisymm x.created_at y.created_at hxy hyx
      exact List.inj_on_of_nodup_map hnodup hx1 hy1 hkey
  simp only [rebuild_current_nags_from_events]
  rw [hs]

/-- Two rows with distinct created_at keys, for the C5 witness. -/
def c5_row1 : EventRow :=
  { created_at := "2024-01-01T00:00:00",
    payload := some { workName := "w", nagText := "a", createdAtEpochMillis := some 5 } }

def c5_row2 : EventRow :=
  { created_at := "2024-01-02T00:00:00",
    payload := some { workName := "w", nagText := "b", createdAtEpochMillis := some 5 } }

/-- C5 witness: with distinct created_at keys the two input orders agree. -/
theorem C5_witness :
    rebuild_current_nags_from_events [c5_row1, c5_row2] 0 =
      rebuild_current_nags_from_events [c5_row2, c5_row1] 0 :=
  C5_reconciler_deterministic [c5_row1, c5_row2] [c5_row2, c5_row1] 0
    (List.Perm.swap _ _ _) (by decide)

/-- C6 counterexample: at due = reference the claimed overdue rank (due ≤
reference → rank 0) fails: the code uses a strict comparison, so an entry
due exactly now gets rank 1, not 0. -/
theorem C6_counterexample :
    (0 : Int) ≤ 0 ∧ (0 : Int) ≠ MAX_LONG ∧ smart_status_rank 0 0 ≠ 0 :=
  ⟨by decide, by decide, by decide⟩

/-- C6 (amended): under the Smart sort the status rank of a resolved due
instant is 0 exactly when due < reference (strictly overdue), 1 exactly
when reference ≤ due and due is within 14 days (1209600000 ms) ahead, 2
exactly when further out, and 3 exactly for the missing-due sentinel; the
sorted output is a permutation of the input ordered by the lexicographic
key (rank, −weight, due, created_at). -/
theorem C6_smart_sort (now_ms_value : Int) :
    (∀ due_ms, due_ms ≠ MAX_LONG →
       ((smart_status_rank due_ms now_ms_value = 0 ↔ due_ms < now_ms_value) ∧
        (smart_status_rank due_ms now_ms_value = 1 ↔
          now_ms_value ≤ due_ms ∧ due_ms - now_ms_value ≤ 1209600000) ∧
        (smart_status_rank due_ms now_ms_value = 2 ↔
          now_ms_value ≤ due_ms ∧ 1209600000 < due_ms - now_ms_value))) ∧
    (∀ due_ms, smart_status_rank due_ms now_ms_value = 3 ↔ due_ms = MAX_LONG) ∧
    (∀ entries : List NagListEntry,
       List.Perm (sort_entries entries SORT_SMART now_ms_value) entries ∧
       (sort_entries entries SORT_SMART now_ms_value).Pairwise
         (fun a b =>
           tuple4Le (smart_sort_key now_ms_value a) (smart_sort_key now_ms_value b) = true)) := by
  refine ⟨?_, ?_, ?_⟩
  · intro due_ms hne
    simp only [MAX_LONG] at hne
    simp only [smart_status_rank, MAX_LONG, PRE_DUE_COLOR_WINDOW_DAYS]
    split_ifs with h1 h2 h3 <;> omega
  · intro due_ms
    simp only [smart_status_rank, MAX_LONG, PRE_DUE_COLOR_WINDOW_DAYS]
    split_ifs with h1 h2 h3 <;> omega
  · intro entries
    simp only [sort_entries]
    rw [if_neg (by decide : ¬ (SORT_SMART = SORT_WEIGHT)),
      if_neg (by decide : ¬ (SORT_SMART = SORT_DUE))]
    simp only [if_true]
    constructor
    · exact pySorted_perm _ entries
    · exact pySorted_pairwise _
        (fun x y => tuple4Le_total (smart_sort_key now_ms_value x) (smart_sort_key now_ms_value y))
        (fun x y z hxy hyz => tuple4Le_trans (smart_sort_key now_ms_value x)
          (smart_sort_key now_ms_value y) (smart_sort_key now_ms_value z) hxy hyz)
        entries

/-- C6 witness: a strictly past due instant gets rank 0. -/
theorem C6_witness : smart_status_rank (-1) 0 = 0 :=
  (((C6_smart_sort 0).1 (-1) (by decide)).1).mpr (by decide)

/-- C7: a date matches the NTH_WEEKDAY_OF_MONTH pattern exactly when its
day is the Nth occurrence of the configured weekday in its month, except
that when N ≥ 5 or the month has fewer than N occurrences the last
occurrence matches instead; the occurrence list of a month is never empty
for a weekday in 1..7. -/
theorem C7_nth_weekday_match (nag : Nag) (y m d dow nth : Int)
    (hmode : nag.mode = NAG_MODE_MONTHLY)
    (hpat : nag.recurring_pattern_type = PATTERN_NTH_WEEKDAY)
    (hdow : nag.recurring_day_of_week = some dow)
    (hdow1 : 1 ≤ dow) (hdow7 : dow ≤ 7)
    (hnth : nag.recurring_nth_week = some nth)
    (hnth1 : 1 ≤ nth)
    (hd1 : 1 ≤ d) (hd2 : d ≤ month_max_day y m) :
    weekdayMatches y m dow ≠ [] ∧
    (is_recurring_date_match nag ⟨y, m, d⟩ = true ↔
      d = (if 5 ≤ nth ∨ ((weekdayMatches y m dow).length : Int) < nth
           then (weekdayMatches y m dow).getLastD 1
           else (weekdayMatches y m dow).getD (nth - 1).toNat 1)) := by
  have hnil := weekdayMatches_ne_nil y m dow hdow1 hdow7
  refine ⟨hnil, ?_⟩
  have h0 : ¬ (nag.mode ≠ NAG_MODE_MONTHLY) := fun hc => hc hmode
  simp only [is_recurring_date_match, if_neg h0, hpat, pyOrStr, hdow, hnth, pyOrInt]
  rw [if_neg (by decide : ¬ (PATTERN_NTH_WEEKDAY = ("" : String)))]
  rw [if_neg (by decide : ¬ (PATTERN_NTH_WEEKDAY = PATTERN_DAY_OF_MONTH))]
  rw [if_neg (by decide : ¬ (PATTERN_NTH_WEEKDAY = PATTERN_DAY_OF_WEEK))]
  rw [if_pos (rfl : PATTERN_NTH_WEEKDAY = PATTERN_NTH_WEEKDAY)]
  rw [if_neg (by omega : ¬ (dow = 0)), if_neg (by omega : ¬ (nth = 0))]
  rw [decide_eq_true_eq]
  have hmain : nth_weekday_day_of_month y m dow nth =
      (if 5 ≤ nth ∨ ((weekdayMatches y m dow).length : Int) < nth
       then (weekdayMatches y m dow).getLastD 1
       else (weekdayMatches y m dow).getD (nth - 1).toNat 1) := by
    simp only [nth_weekday_day_of_month, if_neg hnil]
    by_cases h5 : 5 ≤ nth
    · rw [if_pos h5, if_pos (Or.inl h5)]
    · rw [if_neg h5]
      have hidx : max 0 (nth - 1) = nth - 1 := by omega
      rw [hidx]
      by_cases hlen : (nth - 1 : Int) < ((weekdayMatches y m dow).length : Int)
      · rw [if_pos hlen, if_neg (by omega : ¬ (5 ≤ nth ∨
          ((weekdayMatches y m dow).length : Int) < nth))]
      · rw [if_neg hlen, if_pos (Or.inr (by omega))]
  rw [hmain]

/-- A fifth-Monday NTH_WEEKDAY_OF_MONTH nag (Java Monday = 2), for the C7
witness. -/
def c7_nag : Nag :=
  { work_name := "w", nag_text := "t", bucket := "Work", project_name := none,
    lateness_days := 7, mode := "MONTHLY", repeat_minutes := 60, continue_minutes := none,
    notifications_enabled := true, weight := 50, one_time_epoch_ms := none,
    monthly_day := none, monthly_hour := some 9, monthly_minute := some 0,
    created_at_epoch_ms := 0,
    recurring_pattern_type := "NTH_WEEKDAY_OF_MONTH",
    recurring_day_of_week := some 2, recurring_nth_week := some 5 }

/-- C7 witness: February 2021 has four Mondays (1, 8, 15, 22); the
fifth-Monday configuration matches the last one, 2021-02-22. -/
theorem C7_witness : is_recurring_date_match c7_nag ⟨2021, 2, 22⟩ = true :=
  (C7_nth_weekday_match c7_nag 2021 2 22 2 5 rfl rfl rfl (by decide) (by decide) rfl
      (by decide) (by decide) (by decide)).2.mpr (by decide)
